import Mathlib

/-!
Verification of the notepad- repository's panel/tab layout manager.

The definitions below are a shallow embedding of the renderer state and its
event handlers, translated from `src/renderer/index.tsx` (the React application),
`src/store/editorStore.ts` (the zustand store, `src/unnamed/part_004`) and
`src/renderer/components/ComparePanel.tsx`.  React `useState` state becomes an
explicit `AppState` record; every event handler becomes a function
`AppState → AppState` (sequenced functional `setState` updates are modelled by
sequential record updates, which matches React's functional-update queue).
-/

namespace Notepad

/-- Model of `FileTab` interface from `index.tsx` (a document in the Tab Registry). -/
structure FileTab where
  id : String
  title : String
  content : String
  filePath : Option String := none
  isDirty : Bool
  language : String
deriving Repr, DecidableEq

/-- Model of `EditorPanel` interface from `index.tsx`: a view slot holding tab copies. -/
structure EditorPanel where
  id : String
  tabs : List FileTab
  activeTabId : Option String := none
deriving Repr, DecidableEq

/-- Model of `SplitLayout` interface from `index.tsx`.  The source fields `splitRatio`
and `bottomSplitRatio` (percentages) are named `splitPercent` and
`bottomSplitPercent` here. -/
structure SplitLayout where
  leftPanel : EditorPanel
  rightPanel : Option EditorPanel := none
  bottomPanel : Option EditorPanel := none
  splitPercent : Nat
  bottomSplitPercent : Nat
deriving Repr, DecidableEq

/-- The drag-and-drop state (`dragState` in `index.tsx`). -/
structure DragState where
  isDragging : Bool
  draggedTab : Option FileTab := none
  draggedFromPanel : Option String := none
  dropZone : Option String := none
deriving Repr, DecidableEq

/-- The `compareFiles` state object of `index.tsx` (all fields optional). -/
structure CompareFiles where
  left : Option String := none
  right : Option String := none
  leftName : Option String := none
  rightName : Option String := none
deriving Repr, DecidableEq

/-- The application state of the `App` component in `index.tsx`, restricted to
the fields the panel/tab subsystem reads and writes. -/
structure AppState where
  tabs : List FileTab
  activeTabId : String
  splitLayout : SplitLayout
  dragState : DragState
  isCompareMode : Bool
  compareFiles : CompareFiles
  showTabSelector : Bool
  selectedLeftTab : String
  selectedRightTab : String
deriving Repr, DecidableEq

/-- The tabs of an optional panel (`panel?.tabs || []`). -/
def optTabs (p : Option EditorPanel) : List FileTab :=
  match p with
  | some panel => panel.tabs
  | none => []

/-- Ids of a list of tabs. -/
def idsOf (ts : List FileTab) : List String :=
  ts.map (fun t => t.id)

/-- Model of `handleNew` in `index.tsx`: appends a fresh untitled tab to the registry
and to the left panel.  The fresh id (`Date.now().toString()` in the source)
is taken as a parameter. -/
def handleNew (newId : String) (s : AppState) : AppState :=
  let newTab : FileTab :=
    { id := newId, title := "untitled", content := "", isDirty := false
      language := "plaintext" }
  { s with
    tabs := s.tabs ++ [newTab],
    splitLayout := { s.splitLayout with
      leftPanel := { s.splitLayout.leftPanel with
        tabs := s.splitLayout.leftPanel.tabs ++ [newTab],
        activeTabId := some newTab.id } } }

/-- Model of `extractFileName` in `index.tsx`: last path segment, or "Unknown". -/
def extractFileName (filePath : String) : String :=
  let last := ((filePath.split (fun c => c == '/' || c == '\\')).getLast?).getD ""
  if last == "" then "Unknown" else last

/-- JS `String.prototype.toLowerCase`, as a character-list map (executable in
the kernel, unlike `String.toLower`). -/
def jsToLower (s : String) : String :=
  String.mk (s.data.map Char.toLower)

/-- Helper for `jsSplitDot`: split a character list on '.', accumulating the
current segment in reverse. -/
def splitDotAux : List Char → List Char → List (List Char)
  | [], acc => [acc.reverse]
  | ch :: rest, acc =>
    if ch = '.' then acc.reverse :: splitDotAux rest []
    else splitDotAux rest (ch :: acc)

/-- JS `String.prototype.split('.')`: never empty, keeps empty segments. -/
def jsSplitDot (s : String) : List String :=
  (splitDotAux s.data []).map String.mk

/-- The `languageMap` object literal of `detectLanguageFromFileName`. -/
def languageMap : List (String × String) :=
  [("js", "javascript"), ("jsx", "javascript"), ("mjs", "javascript"),
   ("ts", "typescript"), ("tsx", "typescript"),
   ("html", "html"), ("htm", "html"),
   ("css", "css"), ("scss", "css"), ("sass", "css"),
   ("json", "json"),
   ("py", "python"), ("pyw", "python"),
   ("java", "java"),
   ("c", "c"), ("cpp", "cpp"), ("h", "c"), ("hpp", "cpp"),
   ("md", "markdown"), ("xml", "xml"), ("sql", "sql"), ("sh", "shell"),
   ("bat", "bat"), ("ps1", "powershell"),
   ("txt", "plaintext"), ("log", "plaintext")]

/-- Model of `detectLanguageFromFileName` in `index.tsx` (identical copy in
`src/unnamed/part_005`): lowercases the name, splits on ".", tries the
second-to-last part when there are more than two parts, then falls back to the
last part, defaulting to "plaintext".  JS `toLowerCase().split('.')` is
modelled by `jsToLower`/`jsSplitDot`. -/
def detectLanguageFromFileName (fileName : String) : String :=
  let parts := jsSplitDot (jsToLower fileName)
  let fromSecondToLast : Option String :=
    if parts.length > 2 then
      match parts.get? (parts.length - 2) with
      | some possibleExt => List.lookup possibleExt languageMap
      | none => none
    else none
  match fromSecondToLast with
  | some lang => lang
  | none =>
    let extension := (parts.get? (parts.length - 1)).getD ""
    (List.lookup extension languageMap).getD "plaintext"

/-- Modelled from the claim's words, for comparison with
`detectLanguageFromFileName`: give priority to the second-to-last extension
when the name has more than two dot-separated parts and that extension is a
recognized key; otherwise use the last extension; default "plaintext". -/
def detectLanguageSpec (fileName : String) : String :=
  match (jsSplitDot (jsToLower fileName)).reverse with
  | lastPart :: secondToLast :: _ :: _ =>
    match List.lookup secondToLast languageMap with
    | some lang => lang
    | none => (List.lookup lastPart languageMap).getD "plaintext"
  | lastPart :: _ => (List.lookup lastPart languageMap).getD "plaintext"
  | [] => "plaintext"

/-- The success path of `handleOpen` in `index.tsx`: the opened file is
appended to the registry and to the left panel and becomes active.  The fresh
id and the dialog/file results are parameters. -/
def handleOpenSuccess (newId filePath content : String) (s : AppState) : AppState :=
  let fileName := extractFileName filePath
  let language := detectLanguageFromFileName fileName
  let newTab : FileTab :=
    { id := newId, title := fileName, content := content,
      filePath := some filePath, isDirty := false, language := language }
  { s with
    tabs := s.tabs ++ [newTab],
    activeTabId := newTab.id,
    splitLayout := { s.splitLayout with
      leftPanel := { s.splitLayout.leftPanel with
        tabs := s.splitLayout.leftPanel.tabs ++ [newTab],
        activeTabId := some newTab.id } } }

/-- Model of `handleSplitRight` in `index.tsx`: looks the active tab up in the registry,
replaces the right panel with a panel holding just that tab, then removes the
tab from the registry ("Remove from main tabs since it's now managed in
panels").  The left panel is not touched. -/
def handleSplitRight (s : AppState) : AppState :=
  match s.tabs.find? (fun t => t.id == s.activeTabId) with
  | none => s
  | some activeTab =>
    { s with
      splitLayout := { s.splitLayout with
        rightPanel := some
          { id := "right", tabs := [activeTab], activeTabId := some activeTab.id } },
      tabs := s.tabs.filter (fun t => t.id != activeTab.id) }

/-- Model of `handleTabDragStart` in `index.tsx`. -/
def handleTabDragStart (tab : FileTab) (fromPanel : String) (s : AppState) : AppState :=
  { s with dragState :=
    { isDragging := true, draggedTab := some tab,
      draggedFromPanel := some fromPanel, dropZone := none } }

/-- Model of `handleTabDragEnd` in `index.tsx`: resets the drag state (the object
literal omits `draggedTab`/`draggedFromPanel`, clearing them). -/
def handleTabDragEnd (s : AppState) : AppState :=
  { s with dragState :=
    { isDragging := false, draggedTab := none,
      draggedFromPanel := none, dropZone := none } }

/-- The source-tab lookup at the top of `handleTabDrop`: fetch the live tab
from its claimed source panel. -/
def findSourceTab (s : AppState) (draggedTab : FileTab) (fromPanel : String) :
    Option FileTab :=
  if fromPanel == "left" then
    s.splitLayout.leftPanel.tabs.find? (fun t => t.id == draggedTab.id)
  else if fromPanel == "right" then
    match s.splitLayout.rightPanel with
    | some rp => rp.tabs.find? (fun t => t.id == draggedTab.id)
    | none => none
  else if fromPanel == "bottom" then
    match s.splitLayout.bottomPanel with
    | some bp => bp.tabs.find? (fun t => t.id == draggedTab.id)
    | none => none
  else none

/-- The `toPanel === 'right'` branch of `handleTabDrop`: append the dragged
tab to (or create) the right panel, then remove it from its source panel (the
source's second queued `setSplitLayout`; only left and right sources have a
removal update in this branch). -/
def dropToRight (fromPanel : String) (tab : FileTab) (s : AppState) : AppState :=
  let s1 := { s with splitLayout := { s.splitLayout with
    rightPanel := some
      { id := "right",
        tabs := (match s.splitLayout.rightPanel with
                 | some rp => rp.tabs ++ [tab]
                 | none => [tab]),
        activeTabId := some tab.id } } }
  if fromPanel == "left" then
    let remaining := s1.splitLayout.leftPanel.tabs.filter (fun t => t.id != tab.id)
    { s1 with splitLayout := { s1.splitLayout with
      leftPanel := { s1.splitLayout.leftPanel with
        tabs := remaining,
        activeTabId := (remaining.head?).map (fun t => t.id) } } }
  else if fromPanel == "right" then
    match s1.splitLayout.rightPanel with
    | some rp =>
      let remaining := rp.tabs.filter (fun t => t.id != tab.id)
      { s1 with splitLayout := { s1.splitLayout with
        rightPanel := some { rp with
          tabs := remaining,
          activeTabId := (remaining.head?).map (fun t => t.id) } } }
    | none => { s1 with splitLayout := { s1.splitLayout with rightPanel := none } }
  else s1

/-- The `toPanel === 'left'` branch of `handleTabDrop`: the dragged tab
becomes the left panel's sole tab; a left-sourced drag splits the remaining
left tabs into a new right panel; a right/bottom-sourced drag displaces the
prior left tabs into a rebuilt right panel; a bottom-sourced drag is then
removed from the bottom panel by a second update. -/
def dropToLeft (fromPanel : String) (tab : FileTab) (s : AppState) : AppState :=
  let currentLeftTabs := s.splitLayout.leftPanel.tabs
  if fromPanel == "left" then
    let remainingLeftTabs := currentLeftTabs.filter (fun t => t.id != tab.id)
    { s with splitLayout := { s.splitLayout with
      leftPanel := { s.splitLayout.leftPanel with
        tabs := [tab], activeTabId := some tab.id },
      rightPanel :=
        if remainingLeftTabs.length > 0 then
          some { id := "right"
                 tabs := remainingLeftTabs
                 activeTabId := (remainingLeftTabs.head?).map (fun t => t.id) }
        else s.splitLayout.rightPanel } }
  else
    let newRightTabs : List FileTab :=
      if fromPanel == "right" then
        match s.splitLayout.rightPanel with
        | some rp => currentLeftTabs ++ rp.tabs.filter (fun t => t.id != tab.id)
        | none => []
      else if fromPanel == "bottom" then currentLeftTabs
      else []
    let s1 := { s with splitLayout := { s.splitLayout with
      leftPanel := { s.splitLayout.leftPanel with
        tabs := [tab], activeTabId := some tab.id },
      rightPanel :=
        if newRightTabs.length > 0 then
          some { id := "right"
                 tabs := newRightTabs
                 activeTabId := (newRightTabs.head?).map (fun t => t.id) }
        else s.splitLayout.rightPanel } }
    if fromPanel == "bottom" then
      match s1.splitLayout.bottomPanel with
      | some bp =>
        let remainingTabs := bp.tabs.filter (fun t => t.id != tab.id)
        { s1 with splitLayout := { s1.splitLayout with
          bottomPanel :=
            if remainingTabs.length > 0 then
              some { bp with
                     tabs := remainingTabs
                     activeTabId := (remainingTabs.head?).map (fun t => t.id) }
            else none } }
      | none => s1
    else s1

/-- The `toPanel === 'bottom'` branch of `handleTabDrop`: append the dragged
tab to (or create) the bottom panel, then remove it from its source panel
(destroying an emptied right/bottom source panel). -/
def dropToBottom (fromPanel : String) (tab : FileTab) (s : AppState) : AppState :=
  let s1 := { s with splitLayout := { s.splitLayout with
    bottomPanel := some
      { id := "bottom",
        tabs := (match s.splitLayout.bottomPanel with
                 | some bp => bp.tabs ++ [tab]
                 | none => [tab]),
        activeTabId := some tab.id } } }
  if fromPanel == "left" then
    let remaining := s1.splitLayout.leftPanel.tabs.filter (fun t => t.id != tab.id)
    { s1 with splitLayout := { s1.splitLayout with
      leftPanel := { s1.splitLayout.leftPanel with
        tabs := remaining,
        activeTabId := (remaining.head?).map (fun t => t.id) } } }
  else if fromPanel == "right" then
    match s1.splitLayout.rightPanel with
    | some rp =>
      let remainingTabs := rp.tabs.filter (fun t => t.id != tab.id)
      { s1 with splitLayout := { s1.splitLayout with
        rightPanel :=
          if remainingTabs.length > 0 then
            some { rp with
                   tabs := remainingTabs
                   activeTabId := (remainingTabs.head?).map (fun t => t.id) }
          else none } }
    | none => s1
  else if fromPanel == "bottom" then
    match s1.splitLayout.bottomPanel with
    | some bp =>
      let remainingTabs := bp.tabs.filter (fun t => t.id != tab.id)
      { s1 with splitLayout := { s1.splitLayout with
        bottomPanel :=
          if remainingTabs.length > 0 then
            some { bp with
                   tabs := remainingTabs
                   activeTabId := (remainingTabs.head?).map (fun t => t.id) }
          else none } }
    | none => s1
  else s1

/-- The body of `handleTabDrop` after a successful source lookup: dispatch on
the three `toPanel` branches (anything else falls through untouched). -/
def dropCore (toPanel fromPanel : String) (tab : FileTab) (s : AppState) : AppState :=
  if toPanel == "right" then dropToRight fromPanel tab s
  else if toPanel == "left" then dropToLeft fromPanel tab s
  else if toPanel == "bottom" then dropToBottom fromPanel tab s
  else s

/-- Model of `handleTabDrop` in `index.tsx`: bail out if no drag is in flight, look the
dragged tab up in its claimed source panel (bail out if absent, without
resetting the drag state), run the move, then `handleTabDragEnd()`. -/
def handleTabDrop (toPanel : String) (s : AppState) : AppState :=
  match s.dragState.draggedTab, s.dragState.draggedFromPanel with
  | some draggedTab, some fromPanel =>
    match findSourceTab s draggedTab fromPanel with
    | none => s
    | some tab => handleTabDragEnd (dropCore toPanel fromPanel tab s)
  | _, _ => s

/-- A full drop resolution as the browser delivers it: the drop handler runs,
then the `dragend` event on the drag source fires `handleTabDragEnd`
unconditionally (the tab elements register `onDragEnd={handleTabDragEnd}`). -/
def dropResolution (toPanel : String) (s : AppState) : AppState :=
  handleTabDragEnd (handleTabDrop toPanel s)

/-- Panel identifier for `closeTabFromPanel` ('left' | 'right' | 'bottom'). -/
inductive PanelId where
  | left
  | right
  | bottom
deriving Repr, DecidableEq

/-- The first `setSplitLayout` of `closeTabFromPanel` in `index.tsx`: remove
the tab from the given panel, destroying an emptied right/bottom panel. -/
def closeTabPhase1 (tabId : String) (fromPanel : PanelId) (s : AppState) : AppState :=
  match fromPanel with
  | PanelId.left =>
    let remainingTabs := s.splitLayout.leftPanel.tabs.filter (fun t => t.id != tabId)
    { s with splitLayout := { s.splitLayout with
      leftPanel := { s.splitLayout.leftPanel with
        tabs := remainingTabs,
        activeTabId := (remainingTabs.head?).map (fun t => t.id) } } }
  | PanelId.right =>
    match s.splitLayout.rightPanel with
    | some rp =>
      let remainingTabs := rp.tabs.filter (fun t => t.id != tabId)
      { s with splitLayout := { s.splitLayout with
        rightPanel :=
          if remainingTabs.length > 0 then
            some { rp with
                   tabs := remainingTabs
                   activeTabId := (remainingTabs.head?).map (fun t => t.id) }
          else none } }
    | none => s
  | PanelId.bottom =>
    match s.splitLayout.bottomPanel with
    | some bp =>
      let remainingTabs := bp.tabs.filter (fun t => t.id != tabId)
      { s with splitLayout := { s.splitLayout with
        bottomPanel :=
          if remainingTabs.length > 0 then
            some { bp with
                   tabs := remainingTabs
                   activeTabId := (remainingTabs.head?).map (fun t => t.id) }
          else none } }
    | none => s

/-- The deferred callback of `closeTabFromPanel`: if the tab id is no longer
held by any panel, evict it from the registry. -/
def closeTabEvict (tabId : String) (s1 : AppState) : AppState :=
  let allPanelTabs :=
    s1.splitLayout.leftPanel.tabs ++ optTabs s1.splitLayout.rightPanel ++
      optTabs s1.splitLayout.bottomPanel
  if allPanelTabs.any (fun t => t.id == tabId) then s1
  else { s1 with tabs := s1.tabs.filter (fun t => t.id != tabId) }

/-- Model of `closeTabFromPanel` in `index.tsx`: removes the tab from the given panel
(destroying an emptied right/bottom panel), then — in a deferred zero-delay
callback — evicts it from the registry if no panel still holds it. -/
def closeTabFromPanel (tabId : String) (fromPanel : PanelId) (s : AppState) : AppState :=
  closeTabEvict tabId (closeTabPhase1 tabId fromPanel s)

/-- Model of `closeTab` in `index.tsx`: the registry-level close with the
keep-at-least-one-tab guard (`if (tabs.length === 1) return`). -/
def closeTab (tabId : String) (s : AppState) : AppState :=
  if s.tabs.length == 1 then s
  else
    let updatedTabs := s.tabs.filter (fun t => t.id != tabId)
    let s1 := { s with tabs := updatedTabs }
    if s.activeTabId == tabId && updatedTabs.length > 0 then
      match updatedTabs with
      | t :: _ => { s1 with activeTabId := t.id }
      | [] => s1
    else s1

/-- Model of `updateTab` in `index.tsx`, specialised to the `{content, isDirty: true}`
update used by `handleContentChange` and the editor `onChange` handlers. -/
def updateTabContentDirty (tabId content : String) (s : AppState) : AppState :=
  { s with tabs := s.tabs.map (fun tab =>
      if tab.id == tabId then { tab with content := content, isDirty := true } else tab) }

/-- Model of `handleContentChange` in `index.tsx`: update the active tab, if any. -/
def handleContentChange (content : String) (s : AppState) : AppState :=
  match s.tabs.find? (fun t => t.id == s.activeTabId) with
  | some activeTab => updateTabContentDirty activeTab.id content s
  | none => s

/-- The per-panel editor `onChange` handler in `index.tsx`: the dual write —
`updateTab` on the registry plus a map over the owning panel's local copies. -/
def panelEditorChange (panelId : PanelId) (tabId content : String) (s : AppState) : AppState :=
  let s1 := updateTabContentDirty tabId content s
  let syncTabs := fun (ts : List FileTab) => ts.map (fun t =>
    if t.id == tabId then { t with content := content, isDirty := true } else t)
  match panelId with
  | PanelId.left =>
    { s1 with splitLayout := { s1.splitLayout with
      leftPanel := { s1.splitLayout.leftPanel with
        tabs := syncTabs s1.splitLayout.leftPanel.tabs } } }
  | PanelId.right =>
    match s1.splitLayout.rightPanel with
    | some rp =>
      { s1 with splitLayout := { s1.splitLayout with
        rightPanel := some { rp with tabs := syncTabs rp.tabs } } }
    | none => s1
  | PanelId.bottom =>
    match s1.splitLayout.bottomPanel with
    | some bp =>
      { s1 with splitLayout := { s1.splitLayout with
        bottomPanel := some { bp with tabs := syncTabs bp.tabs } } }
    | none => s1

/-- The per-panel tab `onClick` handlers in `index.tsx`: unconditionally set
the clicked panel's `activeTabId` (no membership check in the handler; the UI
only renders the handler for tabs of that panel). -/
def clickSetActive (panelId : PanelId) (tabId : String) (s : AppState) : AppState :=
  match panelId with
  | PanelId.left =>
    { s with splitLayout := { s.splitLayout with
      leftPanel := { s.splitLayout.leftPanel with activeTabId := some tabId } } }
  | PanelId.right =>
    match s.splitLayout.rightPanel with
    | some rp =>
      { s with splitLayout := { s.splitLayout with
        rightPanel := some { rp with activeTabId := some tabId } } }
    | none => s
  | PanelId.bottom =>
    match s.splitLayout.bottomPanel with
    | some bp =>
      { s with splitLayout := { s.splitLayout with
        bottomPanel := some { bp with activeTabId := some tabId } } }
    | none => s

/-- Outcome of `handleCompareFiles` (which notification path ran). -/
inductive CompareOutcome where
  | rejectedTooFew
  | entered
  | selectorShown
deriving Repr, DecidableEq

/-- Model of `handleCompareFiles` in `index.tsx`, after its wall-clock debounce guard
(a 500 ms minimum interval, modelled as passing): with fewer than two registry
tabs it warns and stops; with exactly two it rearranges the layout to
left=[first], right=[second] and enters compare mode; with more it opens the
tab selector preselecting the first two tabs. -/
def handleCompareFiles (s : AppState) : AppState × CompareOutcome :=
  let allTabs := s.tabs
  if allTabs.length < 2 then (s, CompareOutcome.rejectedTooFew)
  else
    match allTabs with
    | leftTab :: rightTab :: rest =>
      if rest.isEmpty then
        ({ s with
           splitLayout := { s.splitLayout with
             leftPanel := { s.splitLayout.leftPanel with
               tabs := [leftTab], activeTabId := some leftTab.id },
             rightPanel := some
               { id := "right", tabs := [rightTab], activeTabId := some rightTab.id } },
           isCompareMode := true,
           compareFiles :=
             { left := some leftTab.content, right := some rightTab.content,
               leftName := some leftTab.title, rightName := some rightTab.title } },
         CompareOutcome.entered)
      else
        ({ s with
           selectedLeftTab := leftTab.id,
           selectedRightTab := rightTab.id,
           showTabSelector := true },
         CompareOutcome.selectorShown)
    | _ => (s, CompareOutcome.rejectedTooFew)

/-- Outcome of `startTabComparison`. -/
inductive StartCompareOutcome where
  | notFound
  | sameTab
  | entered
deriving Repr, DecidableEq

/-- Model of `startTabComparison` in `index.tsx`: resolves the selected tab ids in the
registry, rejects a missing or identical selection, otherwise rearranges the
layout and enters compare mode. -/
def startTabComparison (s : AppState) : AppState × StartCompareOutcome :=
  match s.tabs.find? (fun t => t.id == s.selectedLeftTab),
        s.tabs.find? (fun t => t.id == s.selectedRightTab) with
  | some leftTab, some rightTab =>
    if leftTab.id == rightTab.id then (s, StartCompareOutcome.sameTab)
    else
      ({ s with
         splitLayout := { s.splitLayout with
           leftPanel := { s.splitLayout.leftPanel with
             tabs := [leftTab], activeTabId := some leftTab.id },
           rightPanel := some
             { id := "right", tabs := [rightTab], activeTabId := some rightTab.id } },
         showTabSelector := false,
         isCompareMode := true,
         compareFiles :=
           { left := some leftTab.content, right := some rightTab.content,
             leftName := some leftTab.title, rightName := some rightTab.title } },
       StartCompareOutcome.entered)
  | _, _ => (s, StartCompareOutcome.notFound)

/-- The `onExitCompare` callback of the diff view in `index.tsx`: clears the
compare flags and nothing else. -/
def onExitCompare (s : AppState) : AppState :=
  { s with isCompareMode := false, compareFiles := {} }

/-- The `menu-exit-compare` handler in `index.tsx`: clears the compare flags
and merges all right/bottom panel tabs into the left panel. -/
def menuExitCompare (s : AppState) : AppState :=
  { s with
    isCompareMode := false,
    compareFiles := {},
    splitLayout := { s.splitLayout with
      leftPanel := { s.splitLayout.leftPanel with
        tabs := s.splitLayout.leftPanel.tabs ++ optTabs s.splitLayout.rightPanel ++
          optTabs s.splitLayout.bottomPanel,
        activeTabId := s.splitLayout.leftPanel.activeTabId },
      rightPanel := none,
      bottomPanel := none } }

/-- The character set JS `String.prototype.trim` strips: the ECMAScript
WhiteSpace productions (TAB U+0009, VT U+000B, FF U+000C, SP U+0020,
NBSP U+00A0, ZWNBSP U+FEFF and the Unicode space separators U+1680,
U+2000-U+200A, U+202F, U+205F, U+3000) and the LineTerminator productions
(LF U+000A, CR U+000D, LS U+2028, PS U+2029). -/
def jsIsWhitespace (c : Char) : Bool :=
  c = '\t' || c = '\n' || c = '\x0B' || c = '\x0C' || c = '\r' || c = ' ' ||
  c = '\u00A0' || c = '\u1680' || ('\u2000' ≤ c && c ≤ '\u200A') ||
  c = '\u2028' || c = '\u2029' || c = '\u202F' || c = '\u205F' ||
  c = '\u3000' || c = '\uFEFF'

/-- JS `!content.trim()`: true iff the content is empty or whitespace-only
(trimming both ends leaves the empty string exactly when every character is
JS whitespace). -/
def isBlank (content : String) : Bool :=
  content.data.all jsIsWhitespace

/-- Model of `handleCompare` in `ComparePanel.tsx`: given the two sides' contents and
the current `showDiff` flag, returns the new `showDiff` flag and whether the
"provide content for both sides" warning fired; empty or whitespace-only
content is rejected (`!content.trim()`, modelled by `isBlank`). -/
def comparePanelHandleCompare (leftContent rightContent : String) (showDiff : Bool) :
    Bool × Bool :=
  if isBlank leftContent || isBlank rightContent then (showDiff, true)
  else (true, false)

/-- The default tab returned by `loadTabs` when nothing is persisted. -/
def defaultTab : FileTab :=
  { id := "1", title := "untitled", content := "", isDirty := false,
    language := "plaintext" }

/-- The initial application state (fresh start, nothing persisted): the
registry and left panel hold the single default tab, which is active. -/
def initState : AppState :=
  { tabs := [defaultTab],
    activeTabId := "1",
    splitLayout :=
      { leftPanel := { id := "left", tabs := [defaultTab], activeTabId := some "1" },
        splitPercent := 50, bottomSplitPercent := 70 },
    dragState := { isDragging := false },
    isCompareMode := false,
    compareFiles := {},
    showTabSelector := false,
    selectedLeftTab := "",
    selectedRightTab := "" }

/-- Membership of a tab in an optional panel's tab list. -/
def inOptPanel (tab : FileTab) (p : Option EditorPanel) : Prop :=
  tab ∈ optTabs p

/-- The states reachable through the UI event handlers, from the fresh-start
state.  Drag starts are only issued for tabs rendered in the corresponding
panel, and drops only on the three drop zones, as in the UI. -/
inductive Reachable : AppState → Prop where
  | init : Reachable initState
  | new (newId : String) {s : AppState} : Reachable s → Reachable (handleNew newId s)
  | openFile (newId filePath content : String) {s : AppState} :
      Reachable s → Reachable (handleOpenSuccess newId filePath content s)
  | splitRight {s : AppState} : Reachable s → Reachable (handleSplitRight s)
  | dragStartLeft (tab : FileTab) {s : AppState} :
      tab ∈ s.splitLayout.leftPanel.tabs → Reachable s →
      Reachable (handleTabDragStart tab "left" s)
  | dragStartRight (tab : FileTab) {s : AppState} :
      inOptPanel tab s.splitLayout.rightPanel → Reachable s →
      Reachable (handleTabDragStart tab "right" s)
  | dragStartBottom (tab : FileTab) {s : AppState} :
      inOptPanel tab s.splitLayout.bottomPanel → Reachable s →
      Reachable (handleTabDragStart tab "bottom" s)
  | dragEnd {s : AppState} : Reachable s → Reachable (handleTabDragEnd s)
  | drop (toPanel : String) {s : AppState} :
      toPanel = "left" ∨ toPanel = "right" ∨ toPanel = "bottom" → Reachable s →
      Reachable (dropResolution toPanel s)
  | closeLeftTab (tabId : String) {s : AppState} :
      Reachable s → Reachable (closeTabFromPanel tabId PanelId.left s)
  | contentChange (content : String) {s : AppState} :
      Reachable s → Reachable (handleContentChange content s)
  | editorChange (panelId : PanelId) (tabId content : String) {s : AppState} :
      Reachable s → Reachable (panelEditorChange panelId tabId content s)
  | clickTab (panelId : PanelId) (tabId : String) {s : AppState} :
      Reachable s → Reachable (clickSetActive panelId tabId s)
  | compare {s : AppState} : Reachable s → Reachable (handleCompareFiles s).1
  | startCompare {s : AppState} : Reachable s → Reachable (startTabComparison s).1
  | exitCompare {s : AppState} : Reachable s → Reachable (onExitCompare s)
  | menuExit {s : AppState} : Reachable s → Reachable (menuExitCompare s)

/-- Tab ids held by the left panel. -/
def leftIds (s : AppState) : List String := idsOf s.splitLayout.leftPanel.tabs

/-- Tab ids held by the right panel. -/
def rightIds (s : AppState) : List String := idsOf (optTabs s.splitLayout.rightPanel)

/-- Tab ids held by the bottom panel. -/
def bottomIds (s : AppState) : List String := idsOf (optTabs s.splitLayout.bottomPanel)

/-- Tab ids present in the Tab Registry. -/
def registryIds (s : AppState) : List String := idsOf s.tabs

/-- The invariant, at the level of id lists: every panel-held id is in the
registry list, and the three panels' id lists are pairwise disjoint. -/
def idsInv (L R B reg : List String) : Prop :=
  (∀ i ∈ L ++ R ++ B, i ∈ reg) ∧
  (∀ i ∈ L, i ∉ R) ∧
  (∀ i ∈ L, i ∉ B) ∧
  (∀ i ∈ R, i ∉ B)

instance (L R B reg : List String) : Decidable (idsInv L R B reg) := by
  unfold idsInv
  infer_instance

/-- The spec's §3/§8 panel invariant: every panel-held tab id is in the
registry, and no tab id is held by two different panels. -/
def panelsInvariant (s : AppState) : Prop :=
  idsInv (leftIds s) (rightIds s) (bottomIds s) (registryIds s)

instance (s : AppState) : Decidable (panelsInvariant s) := by
  unfold panelsInvariant
  infer_instance

/-- Model of `EditorTab` interface from the zustand store (`src/store/editorStore.ts`). -/
structure EditorTab where
  id : String
  title : String
  content : String
  filePath : Option String := none
  isDirty : Bool
  language : String
deriving Repr, DecidableEq

/-- The zustand store state (`EditorState` in `src/store/editorStore.ts`),
restricted to its plain data fields. -/
structure EditorStoreState where
  tabs : List EditorTab
  activeTabId : Option String
  isDarkMode : Bool
  showLineNumbers : Bool
  showMinimap : Bool
  fontSize : Nat
  wordWrap : Bool
  tabSize : Nat
  insertSpaces : Bool
  searchTerm : String
  replaceTerm : String
  showFindPanel : Bool
  showReplacePanel : Bool
deriving Repr, DecidableEq

/-- Model of `setActiveTab` in the zustand store: `set({ activeTabId: tabId })` —
unconditional, with no membership check against the tab list. -/
def EditorStoreState.setActiveTab (s : EditorStoreState) (tabId : String) :
    EditorStoreState :=
  { s with activeTabId := some tabId }

/-- Model of `updateTabContent` in the zustand store: replace the matching tab's
content and set `isDirty: true`; all other tabs are untouched. -/
def EditorStoreState.updateTabContent (s : EditorStoreState) (tabId content : String) :
    EditorStoreState :=
  { s with tabs := s.tabs.map (fun tab =>
      if tab.id == tabId then { tab with content := content, isDirty := true } else tab) }

/-- The idle drag state (`{ isDragging: false, dropZone: null }`, the omitted
object keys clearing the snapshot fields). -/
def idleDragState : DragState :=
  { isDragging := false, draggedTab := none, draggedFromPanel := none, dropZone := none }

/-- A tab id that exists nowhere in `initState` (a stale drag snapshot). -/
def ghostTab : FileTab :=
  { id := "ghost", title := "ghost", content := "", isDirty := false,
    language := "plaintext" }

/-- Model of `initState` with a drag in flight whose dragged tab is not present in its
claimed source panel (the UI race the drop handler must tolerate). -/
def staleDragAppState : AppState :=
  { initState with dragState :=
    { isDragging := true, draggedTab := some ghostTab,
      draggedFromPanel := some "left", dropZone := none } }

/-- A concrete zustand store state holding a single tab with id "a". -/
def storeWithA : EditorStoreState :=
  { tabs := [{ id := "a", title := "A", content := "hello", isDirty := false,
               language := "plaintext" }],
    activeTabId := some "a",
    isDarkMode := false, showLineNumbers := true, showMinimap := true,
    fontSize := 14, wordWrap := false, tabSize := 4, insertSpaces := true,
    searchTerm := "", replaceTerm := "", showFindPanel := false,
    showReplacePanel := false }

/-- Concrete tab X for the drag-back-to-left scenario. -/
def tabX : FileTab :=
  { id := "x", title := "X", content := "xxx", isDirty := false, language := "plaintext" }

/-- Concrete tab Y for the drag-back-to-left scenario. -/
def tabY : FileTab :=
  { id := "y", title := "Y", content := "yyy", isDirty := false, language := "plaintext" }

/-- A concrete state with left panel exactly [Y] and right panel exactly [X]. -/
def splitXYState : AppState :=
  { initState with
    tabs := [tabX, tabY],
    splitLayout :=
      { leftPanel := { id := "left", tabs := [tabY], activeTabId := some "y" },
        rightPanel := some { id := "right", tabs := [tabX], activeTabId := some "x" },
        splitPercent := 50, bottomSplitPercent := 70 } }

/-- A concrete state with left panel [tab "1", tab "2"] and a drag of tab "1"
from the left panel in flight. -/
def dragT1State : AppState :=
  handleTabDragStart defaultTab "left" (handleNew "2" initState)

/-- A concrete state with three tabs ("1", "2", "3") open, for the
tab-selector path of `handleCompareFiles`. -/
def threeTabState : AppState :=
  handleNew "3" (handleNew "2" initState)

/-- A concrete state whose compare selection names the same tab ("1") on both
sides, for the identical-selection rejection of `startTabComparison`. -/
def sameSelState : AppState :=
  { handleNew "2" initState with selectedLeftTab := "1", selectedRightTab := "1" }

/-! ### Helper lemmas -/

theorem idsOf_append (xs ys : List FileTab) : idsOf (xs ++ ys) = idsOf xs ++ idsOf ys :=
  List.map_append _ _ _

theorem idsOf_filter_ne (ts : List FileTab) (i : String) :
    idsOf (ts.filter (fun t => t.id != i)) = (idsOf ts).filter (fun j => j != i) := by
  induction ts with
  | nil => rfl
  | cons t ts ih =>
    by_cases h : t.id = i
    · simp [idsOf, List.filter_cons, h] at ih ⊢
      exact ih
    · simp [idsOf, List.filter_cons, h] at ih ⊢
      exact ih

theorem mem_idsOf {ts : List FileTab} {t : FileTab} (h : t ∈ ts) : t.id ∈ idsOf ts :=
  List.mem_map_of_mem _ h

theorem mem_filter_ne {l : List String} {a i : String} :
    a ∈ l.filter (fun j => j != i) ↔ a ∈ l ∧ a ≠ i := by
  simp [List.mem_filter, bne_iff_ne]

/-- The drag-state reset does not touch the layout or the registry, so it
preserves the panel invariant definitionally. -/
theorem panelsInvariant_dragEnd (s : AppState) :
    panelsInvariant (handleTabDragEnd s) ↔ panelsInvariant s :=
  Iff.rfl

theorem idsInv_mono {L R B reg L' R' B' : List String}
    (h : idsInv L R B reg)
    (hL : ∀ i ∈ L', i ∈ L) (hR : ∀ i ∈ R', i ∈ R) (hB : ∀ i ∈ B', i ∈ B) :
    idsInv L' R' B' reg := by
  obtain ⟨cov, dLR, dLB, dRB⟩ := h
  refine ⟨?_, ?_, ?_, ?_⟩
  · intro i hi
    simp only [List.mem_append] at hi
    rcases hi with (hi | hi) | hi
    · exact cov i (by simp [hL i hi])
    · exact cov i (by simp [hR i hi])
    · exact cov i (by simp [hB i hi])
  · exact fun i hi hmem => dLR i (hL i hi) (hR i hmem)
  · exact fun i hi hmem => dLB i (hL i hi) (hB i hmem)
  · exact fun i hi hmem => dRB i (hR i hi) (hB i hmem)

theorem idsInv_evict {L R B reg : List String} {x : String}
    (h : idsInv L R B reg) (hx : ∀ i ∈ L ++ R ++ B, i ≠ x) :
    idsInv L R B (reg.filter (fun j => j != x)) := by
  obtain ⟨cov, dLR, dLB, dRB⟩ := h
  exact ⟨fun i hi => mem_filter_ne.2 ⟨cov i hi, hx i hi⟩, dLR, dLB, dRB⟩

/-- Moving an id out of the left list into the end of the right list. -/
theorem idsInv_left_to_right {L R B reg : List String} {a : String}
    (ha : a ∈ L) (h : idsInv L R B reg) :
    idsInv (L.filter (fun j => j != a)) (R ++ [a]) B reg := by
  obtain ⟨cov, dLR, dLB, dRB⟩ := h
  refine ⟨?_, ?_, ?_, ?_⟩
  · intro i hi
    simp only [List.mem_append, mem_filter_ne, List.mem_singleton] at hi
    rcases hi with (⟨hi, _⟩ | hi | rfl) | hi
    · exact cov i (by simp [hi])
    · exact cov i (by simp [hi])
    · exact cov i (by simp [ha])
    · exact cov i (by simp [hi])
  · intro i hi hmem
    rcases mem_filter_ne.1 hi with ⟨hiL, hne⟩
    rcases List.mem_append.1 hmem with hiR | hia
    · exact dLR i hiL hiR
    · exact hne (List.mem_singleton.1 hia)
  · intro i hi hmem
    exact dLB i (mem_filter_ne.1 hi).1 hmem
  · intro i hi hmem
    rcases List.mem_append.1 hi with hiR | hia
    · exact dRB i hiR hmem
    · exact dLB a ha (List.mem_singleton.1 hia ▸ hmem)

/-- Moving an id out of the left list into the end of the bottom list. -/
theorem idsInv_left_to_bottom {L R B reg : List String} {a : String}
    (ha : a ∈ L) (h : idsInv L R B reg) :
    idsInv (L.filter (fun j => j != a)) R (B ++ [a]) reg := by
  obtain ⟨cov, dLR, dLB, dRB⟩ := h
  refine ⟨?_, ?_, ?_, ?_⟩
  · intro i hi
    simp only [List.mem_append, mem_filter_ne, List.mem_singleton] at hi
    rcases hi with (⟨hi, _⟩ | hi) | hi | rfl
    · exact cov i (by simp [hi])
    · exact cov i (by simp [hi])
    · exact cov i (by simp [hi])
    · exact cov i (by simp [ha])
  · intro i hi hmem
    exact dLR i (mem_filter_ne.1 hi).1 hmem
  · intro i hi hmem
    rcases mem_filter_ne.1 hi with ⟨hiL, hne⟩
    rcases List.mem_append.1 hmem with hiB | hia
    · exact dLB i hiL hiB
    · exact hne (List.mem_singleton.1 hia)
  · intro i hi hmem
    rcases List.mem_append.1 hmem with hiB | hia
    · exact dRB i hi hiB
    · exact dLR a ha (List.mem_singleton.1 hia ▸ hi)

/-- The left-to-left "split": the dragged id becomes the sole left id and the
remaining left ids become the right list. -/
theorem idsInv_left_split {L R B reg : List String} {a : String}
    (ha : a ∈ L) (h : idsInv L R B reg) :
    idsInv [a] (L.filter (fun j => j != a)) B reg := by
  obtain ⟨cov, dLR, dLB, dRB⟩ := h
  refine ⟨?_, ?_, ?_, ?_⟩
  · intro i hi
    simp only [List.mem_append, mem_filter_ne, List.mem_singleton] at hi
    rcases hi with (rfl | ⟨hi, _⟩) | hi
    · exact cov i (by simp [ha])
    · exact cov i (by simp [hi])
    · exact cov i (by simp [hi])
  · intro i hi hmem
    exact (mem_filter_ne.1 hmem).2 (List.mem_singleton.1 hi ▸ rfl)
  · intro i hi hmem
    exact dLB i (List.mem_singleton.1 hi ▸ ha) hmem
  · intro i hi hmem
    exact dLB i (mem_filter_ne.1 hi).1 hmem

/-- The left-to-left drop with nothing remaining: the dragged id stays the
sole left id and the right list is untouched. -/
theorem idsInv_left_keep {L R B reg : List String} {a : String}
    (ha : a ∈ L) (h : idsInv L R B reg) :
    idsInv [a] R B reg := by
  obtain ⟨cov, dLR, dLB, dRB⟩ := h
  refine ⟨?_, ?_, ?_, dRB⟩
  · intro i hi
    simp only [List.mem_append, List.mem_singleton] at hi
    rcases hi with (rfl | hi) | hi
    · exact cov i (by simp [ha])
    · exact cov i (by simp [hi])
    · exact cov i (by simp [hi])
  · intro i hi hmem
    exact dLR i (List.mem_singleton.1 hi ▸ ha) hmem
  · intro i hi hmem
    exact dLB i (List.mem_singleton.1 hi ▸ ha) hmem

/-- The right-to-left drop: the dragged id becomes the sole left id and the
prior left ids (followed by the remaining right ids) become the right list. -/
theorem idsInv_right_to_left {L R B reg : List String} {a : String}
    (ha : a ∈ R) (h : idsInv L R B reg) :
    idsInv [a] (L ++ R.filter (fun j => j != a)) B reg := by
  obtain ⟨cov, dLR, dLB, dRB⟩ := h
  refine ⟨?_, ?_, ?_, ?_⟩
  · intro i hi
    simp only [List.mem_append, mem_filter_ne, List.mem_singleton] at hi
    rcases hi with (rfl | hi | ⟨hi, _⟩) | hi
    · exact cov i (by simp [ha])
    · exact cov i (by simp [hi])
    · exact cov i (by simp [hi])
    · exact cov i (by simp [hi])
  · intro i hi hmem
    have hia : i = a := List.mem_singleton.1 hi
    rcases List.mem_append.1 hmem with hiL | hiF
    · exact dLR i hiL (hia ▸ ha)
    · exact (mem_filter_ne.1 hiF).2 hia
  · intro i hi hmem
    exact dRB i (List.mem_singleton.1 hi ▸ ha) hmem
  · intro i hi hmem
    rcases List.mem_append.1 hi with hiL | hiF
    · exact dLB i hiL hmem
    · exact dRB i (mem_filter_ne.1 hiF).1 hmem

/-- The right-to-bottom drop. -/
theorem idsInv_right_to_bottom {L R B reg : List String} {a : String}
    (ha : a ∈ R) (h : idsInv L R B reg) :
    idsInv L (R.filter (fun j => j != a)) (B ++ [a]) reg := by
  obtain ⟨cov, dLR, dLB, dRB⟩ := h
  refine ⟨?_, ?_, ?_, ?_⟩
  · intro i hi
    simp only [List.mem_append, mem_filter_ne, List.mem_singleton] at hi
    rcases hi with (hi | ⟨hi, _⟩) | hi | rfl
    · exact cov i (by simp [hi])
    · exact cov i (by simp [hi])
    · exact cov i (by simp [hi])
    · exact cov i (by simp [ha])
  · intro i hi hmem
    exact dLR i hi (mem_filter_ne.1 hmem).1
  · intro i hi hmem
    rcases List.mem_append.1 hmem with hiB | hia
    · exact dLB i hi hiB
    · exact dLR i hi (List.mem_singleton.1 hia ▸ ha)
  · intro i hi hmem
    rcases mem_filter_ne.1 hi with ⟨hiR, hne⟩
    rcases List.mem_append.1 hmem with hiB | hia
    · exact dRB i hiR hiB
    · exact hne (List.mem_singleton.1 hia)

/-! ### Claim C2 — the registry never reaches zero tabs -/

/-- C2 (counterexample): the claim "a request to close the last remaining tab
is rejected on every close path, so the registry never reaches zero tabs" is
false: from the fresh-start state (one tab, id "1"), closing that tab from the
left panel's tab bar (`closeTabFromPanel`) empties the registry. -/
theorem close_last_tab_empties_registry :
    ¬ (∀ s : AppState, Reachable s → s.tabs ≠ []) := by
  intro h
  exact h (closeTabFromPanel "1" PanelId.left initState)
    (Reachable.closeLeftTab "1" Reachable.init) (by decide)

/-- C2 (amended): only the registry-level `closeTab` guards the last tab — it
is a strict no-op when exactly one tab remains; `closeTabFromPanel` (the panel
tab bars' close path) has no such guard and can empty the registry. -/
theorem closeTab_last_tab_noop (s : AppState) (tabId : String)
    (h : s.tabs.length = 1) : closeTab tabId s = s := by
  unfold closeTab
  simp [h]

theorem closeTab_last_tab_noop_witness :
    initState.tabs.length = 1 ∧ closeTab "1" initState = initState :=
  ⟨by decide, closeTab_last_tab_noop initState "1" (by decide)⟩

/-! ### Claim C3 — exiting compare mode and the panel layout -/

/-- C3 (counterexample): entering compare mode from the layout with left panel
[tab "1", tab "2"] and then exiting (`onExitCompare`) does not restore the
layout: compare entry itself rearranged the panels (left=[first], right=
[second]) and the exit callback leaves that rearrangement in place. -/
theorem enter_exit_compare_not_identity :
    (handleCompareFiles (handleNew "2" initState)).2 = CompareOutcome.entered ∧
    (onExitCompare (handleCompareFiles (handleNew "2" initState)).1).splitLayout ≠
      (handleNew "2" initState).splitLayout := by
  exact ⟨by decide, by decide⟩

/-- C3 (amended): there is no layout snapshot. The diff view's exit callback
only clears the compare flags, leaving the panel layout and registry exactly
as they stood *inside* compare mode (not as they stood before entry); the
menu exit path instead merges every right/bottom tab into the left panel and
destroys the right/bottom panels.  In both cases the two compared tabs remain
present in panels and in the registry. -/
theorem exitCompare_leaves_layout (s : AppState) :
    (onExitCompare s).splitLayout = s.splitLayout ∧
    (onExitCompare s).tabs = s.tabs ∧
    (onExitCompare s).isCompareMode = false ∧
    (onExitCompare s).compareFiles = {} ∧
    (menuExitCompare s).splitLayout.leftPanel.tabs =
      s.splitLayout.leftPanel.tabs ++ optTabs s.splitLayout.rightPanel ++
        optTabs s.splitLayout.bottomPanel ∧
    (menuExitCompare s).splitLayout.rightPanel = none ∧
    (menuExitCompare s).splitLayout.bottomPanel = none ∧
    (menuExitCompare s).tabs = s.tabs :=
  ⟨rfl, rfl, rfl, rfl, rfl, rfl, rfl, rfl⟩

/-! ### Claim C5 — a drop whose source tab is missing cancels the drag -/

/-- C5 (confirmed): when the dragged tab's id cannot be found in the tabs list
of its claimed source panel, the drop resolution (the drop handler followed by
the unconditional `dragend` reset the tab elements register) leaves the panel
layout and the Tab Registry untouched and resets the drag state to idle. -/
theorem missing_source_drop_cancels (s : AppState) (toPanel : String)
    (dtab : FileTab) (fromPanel : String)
    (hdt : s.dragState.draggedTab = some dtab)
    (hdf : s.dragState.draggedFromPanel = some fromPanel)
    (hmiss : findSourceTab s dtab fromPanel = none) :
    dropResolution toPanel s = { s with dragState := idleDragState } := by
  unfold dropResolution handleTabDrop
  rw [hdt, hdf]
  simp only [hmiss]
  rfl

theorem missing_source_drop_cancels_witness :
    dropResolution "right" staleDragAppState =
      { staleDragAppState with dragState := idleDragState } :=
  missing_source_drop_cancels staleDragAppState "right" ghostTab "left"
    (by rfl) (by rfl) (by decide)

/-! ### Claim C7 — dragging back to a non-empty left panel relocates -/

/-- C7 (confirmed): with left panel exactly [Y] and right panel exactly [X],
dragging X from the right panel and dropping it on the left zone gives left
panel [X] (X active) and right panel [Y] (Y active); the displaced tab Y is
relocated into the right panel, not discarded, and the registry is
untouched. -/
theorem drag_back_to_left_relocates (s : AppState) (x y : FileTab) (rp : EditorPanel)
    (hleft : s.splitLayout.leftPanel.tabs = [y])
    (hrp : s.splitLayout.rightPanel = some rp)
    (hrtabs : rp.tabs = [x]) :
    ((handleTabDrop "left" (handleTabDragStart x "right" s)).splitLayout.leftPanel.tabs
        = [x]) ∧
    ((handleTabDrop "left" (handleTabDragStart x "right" s)).splitLayout.leftPanel.activeTabId
        = some x.id) ∧
    ((handleTabDrop "left" (handleTabDragStart x "right" s)).splitLayout.rightPanel
        = some { id := "right", tabs := [y], activeTabId := some y.id }) ∧
    ((handleTabDrop "left" (handleTabDragStart x "right" s)).tabs = s.tabs) := by
  unfold handleTabDrop handleTabDragStart findSourceTab dropCore dropToLeft
  simp [hrp, hrtabs, hleft, handleTabDragEnd]

theorem drag_back_to_left_relocates_witness :
    ((handleTabDrop "left" (handleTabDragStart tabX "right" splitXYState)).splitLayout.leftPanel.tabs
        = [tabX]) ∧
    ((handleTabDrop "left" (handleTabDragStart tabX "right" splitXYState)).splitLayout.leftPanel.activeTabId
        = some tabX.id) ∧
    ((handleTabDrop "left" (handleTabDragStart tabX "right" splitXYState)).splitLayout.rightPanel
        = some { id := "right", tabs := [tabY], activeTabId := some tabY.id }) ∧
    ((handleTabDrop "left" (handleTabDragStart tabX "right" splitXYState)).tabs
        = splitXYState.tabs) :=
  drag_back_to_left_relocates splitXYState tabX tabY
    { id := "right", tabs := [tabX], activeTabId := some "x" }
    (by rfl) (by rfl) (by rfl)

/-! ### Claim C8 — updateContent replaces content and marks dirty -/

/-- C8 (confirmed): `updateTabContent(id, text)` replaces the matching tab's
content with `text` and sets `isDirty` to true — unconditionally, so also when
`text` equals the current content — while leaving the tab's other fields,
every other tab, and the rest of the store state unchanged. -/
theorem updateTabContent_replaces_and_dirties (s : EditorStoreState)
    (tabId text : String) (i : Nat) (tab : EditorTab)
    (hget : s.tabs.get? i = some tab) :
    ((s.updateTabContent tabId text).tabs.get? i =
      some (if tab.id = tabId then
              { tab with content := text, isDirty := true } else tab)) ∧
    (s.updateTabContent tabId text).tabs.length = s.tabs.length ∧
    (s.updateTabContent tabId text).activeTabId = s.activeTabId := by
  refine ⟨?_, by simp [EditorStoreState.updateTabContent], rfl⟩
  unfold EditorStoreState.updateTabContent
  simp only [List.get?_eq_getElem?, List.getElem?_map] at hget ⊢
  rw [hget]
  by_cases h : tab.id = tabId
  · simp [h]
  · simp [h]

/-- Witness for C8, exercising the "text unchanged" corner: the tab's content
is already "hello", updating with "hello" still flips `isDirty` to true. -/
theorem updateTabContent_replaces_and_dirties_witness :
    (storeWithA.updateTabContent "a" "hello").tabs.get? 0 =
      some { id := "a", title := "A", content := "hello", isDirty := true,
             language := "plaintext" } ∧
    (storeWithA.updateTabContent "a" "hello").tabs.length = storeWithA.tabs.length ∧
    (storeWithA.updateTabContent "a" "hello").activeTabId = storeWithA.activeTabId := by
  have h := updateTabContent_replaces_and_dirties storeWithA "a" "hello" 0
    { id := "a", title := "A", content := "hello", isDirty := false,
      language := "plaintext" } (by decide)
  simpa using h

/-! ### Claim C9 — setActiveTab with an id not in the panel's list -/

/-- C9 (counterexample): the claim "setActiveTab is a silent no-op whenever
the tab id is not present in the tab list" is false: the store's
`setActiveTab` performs no membership check, so activating the absent id "b"
changes the state (the active tab id becomes the dangling "b"). -/
theorem setActiveTab_absent_id_changes_state :
    storeWithA.setActiveTab "b" ≠ storeWithA ∧
    storeWithA.tabs.all (fun t => t.id != "b") = true := by
  exact ⟨by decide, by decide⟩

/-- C9 (amended): `setActiveTab` (store) and the panel tab `onClick` handlers
(renderer) set the active tab id unconditionally, with no membership check;
the tab lists and the registry are untouched.  The UI only invokes the click
handler on tabs rendered from the panel's own list, which is the only sense in
which activation is restricted to list members. -/
theorem setActiveTab_unconditional :
    (∀ (s : EditorStoreState) (tabId : String),
      (s.setActiveTab tabId).activeTabId = some tabId ∧
      (s.setActiveTab tabId).tabs = s.tabs) ∧
    (∀ (s : AppState) (tabId : String),
      (clickSetActive PanelId.left tabId s).splitLayout.leftPanel.activeTabId
          = some tabId ∧
      (clickSetActive PanelId.left tabId s).splitLayout.leftPanel.tabs
          = s.splitLayout.leftPanel.tabs ∧
      (clickSetActive PanelId.left tabId s).tabs = s.tabs) :=
  ⟨fun _ _ => ⟨rfl, rfl⟩, fun _ _ => ⟨rfl, rfl, rfl⟩⟩

/-! ### Claim C4 — same-panel drop -/

/-- C4 (counterexample): the claim "a drop onto the panel the tab was dragged
from is a no-op" is false for a left-to-left drop: with left panel
[tab "1", tab "2"] and tab "1" being dragged from the left panel, dropping on
the left zone changes the layout (it splits: left becomes [tab "1"] and a
right panel [tab "2"] is created). -/
theorem same_panel_drop_changes_layout :
    defaultTab ∈ dragT1State.splitLayout.leftPanel.tabs ∧
    dragT1State.dragState.draggedFromPanel = some "left" ∧
    (handleTabDrop "left" dragT1State).splitLayout ≠ dragT1State.splitLayout := by
  exact ⟨by decide, by decide, by decide⟩

/-- C4 (amended): a left-to-left drop is not a drag-cancel no-op: the dragged
tab becomes the left panel's only tab (and its active tab), and the remaining
left tabs are moved into a freshly built right panel (replacing any existing
one) when any remain; only when no other left tab remains is the right panel
left as it was.  The bottom panel and the registry are untouched. -/
theorem left_to_left_drop_splits (s : AppState) (dtab tab : FileTab)
    (hdt : s.dragState.draggedTab = some dtab)
    (hdf : s.dragState.draggedFromPanel = some "left")
    (hfind : s.splitLayout.leftPanel.tabs.find? (fun t => t.id == dtab.id) = some tab) :
    ((handleTabDrop "left" s).splitLayout.leftPanel.tabs = [tab]) ∧
    ((handleTabDrop "left" s).splitLayout.leftPanel.activeTabId = some tab.id) ∧
    ((handleTabDrop "left" s).splitLayout.rightPanel =
      (if (s.splitLayout.leftPanel.tabs.filter (fun t => t.id != tab.id)).length > 0 then
        some { id := "right"
               tabs := s.splitLayout.leftPanel.tabs.filter (fun t => t.id != tab.id)
               activeTabId :=
                 ((s.splitLayout.leftPanel.tabs.filter
                     (fun t => t.id != tab.id)).head?).map (fun t => t.id) }
      else s.splitLayout.rightPanel)) ∧
    ((handleTabDrop "left" s).splitLayout.bottomPanel = s.splitLayout.bottomPanel) ∧
    ((handleTabDrop "left" s).tabs = s.tabs) := by
  unfold handleTabDrop findSourceTab dropCore dropToLeft
  rw [hdt, hdf]
  simp [hfind, handleTabDragEnd]

theorem left_to_left_drop_splits_witness :
    ((handleTabDrop "left" dragT1State).splitLayout.leftPanel.tabs = [defaultTab]) ∧
    ((handleTabDrop "left" dragT1State).splitLayout.leftPanel.activeTabId
        = some defaultTab.id) ∧
    ((handleTabDrop "left" dragT1State).splitLayout.rightPanel =
      (if (dragT1State.splitLayout.leftPanel.tabs.filter
             (fun t => t.id != defaultTab.id)).length > 0 then
        some { id := "right"
               tabs := dragT1State.splitLayout.leftPanel.tabs.filter
                 (fun t => t.id != defaultTab.id)
               activeTabId :=
                 ((dragT1State.splitLayout.leftPanel.tabs.filter
                     (fun t => t.id != defaultTab.id)).head?).map (fun t => t.id) }
      else dragT1State.splitLayout.rightPanel)) ∧
    ((handleTabDrop "left" dragT1State).splitLayout.bottomPanel
        = dragT1State.splitLayout.bottomPanel) ∧
    ((handleTabDrop "left" dragT1State).tabs = dragT1State.tabs) :=
  left_to_left_drop_splits dragT1State defaultTab defaultTab
    (by rfl) (by rfl) (by decide)

/-! ### Claim C6 — compare-request rejection conditions -/

/-- C6 (counterexample): the claim that a compare request is rejected whenever
either selected tab's content is empty or whitespace-only is false: with
exactly two open tabs whose contents are both empty, `handleCompareFiles`
enters compare mode. -/
theorem empty_content_compare_still_enters :
    (handleNew "2" initState).tabs.all (fun t => isBlank t.content) = true ∧
    (handleCompareFiles (handleNew "2" initState)).2 = CompareOutcome.entered ∧
    (handleCompareFiles (handleNew "2" initState)).1.isCompareMode = true := by
  exact ⟨by decide, by decide, by decide⟩

/-- C6 (amended): the main compare path (`handleCompareFiles`) rejects with a
warning only when fewer than two tabs are open; with exactly two tabs it
always enters compare mode, with no emptiness (or distinctness) check; with
more than two tabs it opens the tab selector preselecting the first two tabs,
and the selector's `startTabComparison` rejects a missing selection and an
identical selection.  An empty/whitespace-content check exists only in the
separate `ComparePanel` dialog, whose compare button warns and stays in edit
mode exactly when either side's content trims to empty under the JS
whitespace set. -/
theorem compare_rejection_conditions :
    (∀ s : AppState,
      s.tabs.length < 2 → handleCompareFiles s = (s, CompareOutcome.rejectedTooFew)) ∧
    (∀ (s : AppState) (a b : FileTab), s.tabs = [a, b] →
      (handleCompareFiles s).2 = CompareOutcome.entered ∧
      (handleCompareFiles s).1.isCompareMode = true ∧
      (handleCompareFiles s).1.splitLayout.leftPanel.tabs = [a] ∧
      (handleCompareFiles s).1.splitLayout.rightPanel =
        some { id := "right", tabs := [b], activeTabId := some b.id }) ∧
    (∀ (s : AppState) (a b c : FileTab) (rest : List FileTab),
      s.tabs = a :: b :: c :: rest →
      handleCompareFiles s =
        ({ s with
            selectedLeftTab := a.id
            selectedRightTab := b.id
            showTabSelector := true }, CompareOutcome.selectorShown)) ∧
    (∀ s : AppState, s.tabs.find? (fun t => t.id == s.selectedLeftTab) = none →
      startTabComparison s = (s, StartCompareOutcome.notFound)) ∧
    (∀ (s : AppState) (lt rt : FileTab),
      s.tabs.find? (fun t => t.id == s.selectedLeftTab) = some lt →
      s.tabs.find? (fun t => t.id == s.selectedRightTab) = some rt →
      lt.id = rt.id →
      startTabComparison s = (s, StartCompareOutcome.sameTab)) ∧
    (∀ (leftContent rightContent : String) (showDiff : Bool),
      (comparePanelHandleCompare leftContent rightContent showDiff).2 =
        (isBlank leftContent || isBlank rightContent) ∧
      ((isBlank leftContent || isBlank rightContent) = false →
        comparePanelHandleCompare leftContent rightContent showDiff = (true, false))) := by
  refine ⟨?_, ?_, ?_, ?_, ?_, ?_⟩
  · intro s h
    unfold handleCompareFiles
    simp [h]
  · intro s a b h
    unfold handleCompareFiles
    simp [h]
  · intro s a b c rest h
    unfold handleCompareFiles
    simp [h]
  · intro s h
    unfold startTabComparison
    rw [h]
  · intro s lt rt h1 h2 h3
    unfold startTabComparison
    rw [h1, h2]
    simp [h3]
  · intro leftContent rightContent showDiff
    unfold comparePanelHandleCompare
    by_cases h : (isBlank leftContent || isBlank rightContent) = true
    · simp [h]
    · simp at h
      simp [h]

/-- Witness for the amended C6, exercising every branch: a one-tab rejection,
a two-tab (empty-content) entry, a three-tab selector opening, a
missing-selection rejection, an identical-selection rejection, and both
outcomes of the `ComparePanel` compare button (including a vertical-tab,
NBSP and ZWNBSP whitespace-only side). -/
theorem compare_rejection_conditions_witness :
    handleCompareFiles initState = (initState, CompareOutcome.rejectedTooFew) ∧
    (handleCompareFiles (handleNew "2" initState)).1.splitLayout.leftPanel.tabs
        = [defaultTab] ∧
    handleCompareFiles threeTabState =
      ({ threeTabState with
          selectedLeftTab := "1"
          selectedRightTab := "2"
          showTabSelector := true }, CompareOutcome.selectorShown) ∧
    startTabComparison initState = (initState, StartCompareOutcome.notFound) ∧
    startTabComparison sameSelState = (sameSelState, StartCompareOutcome.sameTab) ∧
    comparePanelHandleCompare "\x0B\u00A0\uFEFF" "x" false = (false, true) ∧
    comparePanelHandleCompare "a" "b" false = (true, false) := by
  refine ⟨?_, ?_, ?_, ?_, ?_, ?_, ?_⟩
  · exact compare_rejection_conditions.1 initState (by decide)
  · exact (compare_rejection_conditions.2.1 (handleNew "2" initState) defaultTab
      { id := "2", title := "untitled", content := "", isDirty := false,
        language := "plaintext" } (by decide)).2.2.1
  · exact compare_rejection_conditions.2.2.1 threeTabState defaultTab
      { id := "2", title := "untitled", content := "", isDirty := false,
        language := "plaintext" }
      { id := "3", title := "untitled", content := "", isDirty := false,
        language := "plaintext" } [] (by decide)
  · exact compare_rejection_conditions.2.2.2.1 initState (by decide)
  · exact compare_rejection_conditions.2.2.2.2.1 sameSelState defaultTab defaultTab
      (by decide) (by decide) (by decide)
  · have h := (compare_rejection_conditions.2.2.2.2.2 "\x0B\u00A0\uFEFF" "x" false).1
    rw [show (isBlank "\x0B\u00A0\uFEFF" || isBlank "x") = true from by decide] at h
    unfold comparePanelHandleCompare
    rw [if_pos (by decide)]
  · exact (compare_rejection_conditions.2.2.2.2.2 "a" "b" false).2 (by decide)

/-! ### Claim C10 — language detection from a file name -/

/-- C10 (confirmed): language detection prioritises the second-to-last
dot-separated part when the name has more than two parts and that part is a
recognized key (so "prova.js.txt" maps to javascript, not plaintext);
otherwise it uses the last part, returning "plaintext" for an unrecognized or
missing extension.  Stated as equality with the claim-shaped
`detectLanguageSpec` on every input, plus the concrete examples. -/
theorem detectLanguage_matches_spec (fileName : String) :
    detectLanguageFromFileName fileName = detectLanguageSpec fileName ∧
    detectLanguageFromFileName "prova.js.txt" = "javascript" ∧
    detectLanguageFromFileName "notes.TXT" = "plaintext" ∧
    detectLanguageFromFileName "archive.tar.unknownext" = "plaintext" ∧
    detectLanguageFromFileName "noextension" = "plaintext" := by
  refine ⟨?_, by decide, by decide, by decide, by decide⟩
  unfold detectLanguageFromFileName detectLanguageSpec
  generalize (jsSplitDot (jsToLower fileName)) = parts
  rcases hr : parts.reverse with _ | ⟨a, _ | ⟨b, _ | ⟨c, rest⟩⟩⟩
  · have hp : parts = [] := List.reverse_eq_nil_iff.mp hr
    subst hp
    rfl
  · have hp : parts = [a] := by
      have h := congrArg List.reverse hr
      simpa using h
    subst hp
    simp
  · have hp : parts = [b, a] := by
      have h := congrArg List.reverse hr
      simpa using h
    subst hp
    simp
  · have hp : parts = rest.reverse ++ [c, b, a] := by
      have h := congrArg List.reverse hr
      simpa using h
    subst hp
    have hlen : (rest.reverse ++ [c, b, a]).length = rest.length + 3 := by simp
    have h2 : (rest.reverse ++ [c, b, a]).get? (rest.length + 3 - 2) = some b := by
      rw [List.get?_eq_getElem?, List.getElem?_append_right (by simp)]
      simp
    have h1 : (rest.reverse ++ [c, b, a]).get? (rest.length + 3 - 1) = some a := by
      rw [List.get?_eq_getElem?, List.getElem?_append_right (by simp)]
      simp
    have hgt : (2 : Nat) < rest.length + 3 := by omega
    simp only [hlen, gt_iff_lt, hgt, if_true, h2, h1]
    cases hb : List.lookup b languageMap
    · simp [hb, h1]
    · simp [hb]

/-! ### Claim C1 — panel/registry invariant -/

theorem idsInv_right_self_filter {L R B reg : List String} {a : String}
    (h : idsInv L R B reg) :
    idsInv L ((R ++ [a]).filter (fun j => j != a)) B reg := by
  refine idsInv_mono h (fun i hi => hi) ?_ (fun i hi => hi)
  intro i hi
  rcases mem_filter_ne.1 hi with ⟨hiR, hne⟩
  rcases List.mem_append.1 hiR with h1 | h1
  · exact h1
  · exact absurd (List.mem_singleton.1 h1) hne

theorem idsOf_cons (t : FileTab) (ts : List FileTab) :
    idsOf (t :: ts) = t.id :: idsOf ts := rfl

theorem idsOf_nil : idsOf [] = [] := rfl

theorem closeTabEvict_preserves (tabId : String) (s1 : AppState)
    (h1 : panelsInvariant s1) :
    panelsInvariant (closeTabEvict tabId s1) := by
  unfold closeTabEvict
  by_cases h : (s1.splitLayout.leftPanel.tabs ++ optTabs s1.splitLayout.rightPanel ++
      optTabs s1.splitLayout.bottomPanel).any (fun t => t.id == tabId) = true
  · rw [if_pos h]
    exact h1
  · rw [if_neg h]
    have hx : ∀ i ∈ leftIds s1 ++ rightIds s1 ++ bottomIds s1, i ≠ tabId := by
      intro i hi
      simp only [List.any_eq_true, not_exists, not_and, Bool.not_eq_true] at h
      simp only [leftIds, rightIds, bottomIds, idsOf, List.mem_append, List.mem_map] at hi
      rcases hi with (⟨t, ht, rfl⟩ | ⟨t, ht, rfl⟩) | ⟨t, ht, rfl⟩
      · have hh := h t (by simp [ht])
        simpa using hh
      · have hh := h t (by simp [ht])
        simpa using hh
      · have hh := h t (by simp [ht])
        simpa using hh
    have hres := idsInv_evict h1 hx
    show idsInv _ _ _ _
    simpa [panelsInvariant, leftIds, rightIds, bottomIds, registryIds, idsOf_filter_ne]
      using hres

theorem closeTabPhase1_preserves (tabId : String) (fromPanel : PanelId) (s : AppState)
    (hinv : panelsInvariant s) :
    panelsInvariant (closeTabPhase1 tabId fromPanel s) := by
  cases fromPanel with
  | left =>
    unfold closeTabPhase1
    dsimp only
    refine idsInv_mono hinv ?_ (fun i hi => hi) (fun i hi => hi)
    intro i hi
    simp only [leftIds, idsOf_filter_ne, mem_filter_ne] at hi
    exact hi.1
  | right =>
    unfold closeTabPhase1
    cases hrp : s.splitLayout.rightPanel with
    | none => exact hinv
    | some rp =>
      dsimp only
      by_cases hlen : (rp.tabs.filter (fun t => t.id != tabId)).length > 0
      · rw [if_pos hlen]
        refine idsInv_mono hinv (fun i hi => hi) ?_ (fun i hi => hi)
        intro i hi
        simp only [rightIds, optTabs, idsOf_filter_ne, mem_filter_ne, hrp] at hi ⊢
        exact hi.1
      · rw [if_neg hlen]
        refine idsInv_mono hinv (fun i hi => hi) ?_ (fun i hi => hi)
        intro i hi
        simp [rightIds, optTabs, idsOf] at hi
  | bottom =>
    unfold closeTabPhase1
    cases hbp : s.splitLayout.bottomPanel with
    | none => exact hinv
    | some bp =>
      dsimp only
      by_cases hlen : (bp.tabs.filter (fun t => t.id != tabId)).length > 0
      · rw [if_pos hlen]
        refine idsInv_mono hinv (fun i hi => hi) (fun i hi => hi) ?_
        intro i hi
        simp only [bottomIds, optTabs, idsOf_filter_ne, mem_filter_ne, hbp] at hi ⊢
        exact hi.1
      · rw [if_neg hlen]
        refine idsInv_mono hinv (fun i hi => hi) (fun i hi => hi) ?_
        intro i hi
        simp [bottomIds, optTabs, idsOf] at hi

theorem closeTabFromPanel_preserves (tabId : String) (fromPanel : PanelId) (s : AppState)
    (hinv : panelsInvariant s) :
    panelsInvariant (closeTabFromPanel tabId fromPanel s) :=
  closeTabEvict_preserves tabId _ (closeTabPhase1_preserves tabId fromPanel s hinv)

theorem dropToRight_preserves (tab : FileTab) (s : AppState)
    (hinv : panelsInvariant s)
    (hsrc : tab ∈ s.splitLayout.leftPanel.tabs) :
    panelsInvariant (dropToRight "left" tab s) := by
  unfold dropToRight
  dsimp only
  have ha : tab.id ∈ leftIds s := mem_idsOf hsrc
  cases hrp : s.splitLayout.rightPanel with
  | none =>
    have h := idsInv_left_to_right ha hinv
    show idsInv _ _ _ _
    simpa [panelsInvariant, leftIds, rightIds, bottomIds, registryIds, optTabs, hrp,
      idsOf_append, idsOf_filter_ne, idsOf_cons, idsOf_nil] using h
  | some rp =>
    have h := idsInv_left_to_right ha hinv
    show idsInv _ _ _ _
    simpa [panelsInvariant, leftIds, rightIds, bottomIds, registryIds, optTabs, hrp,
      idsOf_append, idsOf_filter_ne, idsOf_cons, idsOf_nil] using h

theorem dropToRight_from_right_preserves (tab : FileTab) (s : AppState)
    (hinv : panelsInvariant s)
    (hsrc : tab ∈ optTabs s.splitLayout.rightPanel) :
    panelsInvariant (dropToRight "right" tab s) := by
  unfold dropToRight
  dsimp only
  cases hrp : s.splitLayout.rightPanel with
  | none =>
    rw [hrp] at hsrc
    simp [optTabs] at hsrc
  | some rp =>
    have h := idsInv_right_self_filter (a := tab.id) hinv
    show idsInv _ _ _ _
    simpa [panelsInvariant, leftIds, rightIds, bottomIds, registryIds, optTabs, hrp,
      idsOf_append, idsOf_filter_ne, idsOf_cons, idsOf_nil] using h

theorem dropToLeft_from_left_preserves (tab : FileTab) (s : AppState)
    (hinv : panelsInvariant s)
    (hsrc : tab ∈ s.splitLayout.leftPanel.tabs) :
    panelsInvariant (dropToLeft "left" tab s) := by
  unfold dropToLeft
  dsimp only
  have ha : tab.id ∈ leftIds s := mem_idsOf hsrc
  by_cases hlen :
      (s.splitLayout.leftPanel.tabs.filter (fun t => t.id != tab.id)).length > 0
  · rw [if_pos hlen]
    have h := idsInv_left_split ha hinv
    show idsInv _ _ _ _
    simpa [panelsInvariant, leftIds, rightIds, bottomIds, registryIds, optTabs,
      idsOf_append, idsOf_filter_ne, idsOf_cons, idsOf_nil] using h
  · rw [if_neg hlen]
    have h := idsInv_left_keep ha hinv
    show idsInv _ _ _ _
    simpa [panelsInvariant, leftIds, rightIds, bottomIds, registryIds, optTabs,
      idsOf_append, idsOf_filter_ne, idsOf_cons, idsOf_nil] using h

theorem dropToLeft_from_right_preserves (tab : FileTab) (s : AppState)
    (hinv : panelsInvariant s)
    (hsrc : tab ∈ optTabs s.splitLayout.rightPanel)
    (hLne : s.splitLayout.leftPanel.tabs ≠ []) :
    panelsInvariant (dropToLeft "right" tab s) := by
  unfold dropToLeft
  simp only [String.reduceBEq, Bool.false_eq_true, if_false, if_true]
  cases hrp : s.splitLayout.rightPanel with
  | none =>
    rw [hrp] at hsrc
    simp [optTabs] at hsrc
  | some rp =>
    dsimp only
    rw [hrp] at hsrc
    have ha : tab.id ∈ rightIds s := by
      simp only [rightIds, optTabs, hrp]
      exact mem_idsOf hsrc
    have hlen :
        (s.splitLayout.leftPanel.tabs ++
          rp.tabs.filter (fun t => t.id != tab.id)).length > 0 := by
      have := List.length_pos.2 hLne
      simp [List.length_append]
      omega
    rw [if_pos hlen]
    have h := idsInv_right_to_left ha hinv
    show idsInv _ _ _ _
    simpa [panelsInvariant, leftIds, rightIds, bottomIds, registryIds, optTabs, hrp,
      idsOf_append, idsOf_filter_ne, idsOf_cons, idsOf_nil] using h

theorem dropToBottom_from_left_preserves (tab : FileTab) (s : AppState)
    (hinv : panelsInvariant s)
    (hsrc : tab ∈ s.splitLayout.leftPanel.tabs) :
    panelsInvariant (dropToBottom "left" tab s) := by
  unfold dropToBottom
  dsimp only
  have ha : tab.id ∈ leftIds s := mem_idsOf hsrc
  cases hbp : s.splitLayout.bottomPanel with
  | none =>
    have h := idsInv_left_to_bottom ha hinv
    show idsInv _ _ _ _
    simpa [panelsInvariant, leftIds, rightIds, bottomIds, registryIds, optTabs, hbp,
      idsOf_append, idsOf_filter_ne, idsOf_cons, idsOf_nil] using h
  | some bp =>
    have h := idsInv_left_to_bottom ha hinv
    show idsInv _ _ _ _
    simpa [panelsInvariant, leftIds, rightIds, bottomIds, registryIds, optTabs, hbp,
      idsOf_append, idsOf_filter_ne, idsOf_cons, idsOf_nil] using h

theorem dropToBottom_from_right_preserves (tab : FileTab) (s : AppState)
    (hinv : panelsInvariant s)
    (hsrc : tab ∈ optTabs s.splitLayout.rightPanel) :
    panelsInvariant (dropToBottom "right" tab s) := by
  unfold dropToBottom
  simp only [String.reduceBEq, Bool.false_eq_true, if_false, if_true]
  cases hrp : s.splitLayout.rightPanel with
  | none =>
    rw [hrp] at hsrc
    simp [optTabs] at hsrc
  | some rp =>
    dsimp only
    rw [hrp] at hsrc
    have ha : tab.id ∈ rightIds s := by
      simp only [rightIds, optTabs, hrp]
      exact mem_idsOf hsrc
    have h := idsInv_right_to_bottom ha hinv
    cases hbp : s.splitLayout.bottomPanel with
    | none =>
      by_cases hlen : (rp.tabs.filter (fun t => t.id != tab.id)).length > 0
      · rw [if_pos hlen]
        show idsInv _ _ _ _
        simpa [panelsInvariant, leftIds, rightIds, bottomIds, registryIds, optTabs,
          hrp, hbp, idsOf_append, idsOf_filter_ne, idsOf_cons, idsOf_nil] using h
      · rw [if_neg hlen]
        have h2 := idsInv_mono h (fun i hi => hi)
          (fun i (hi : i ∈ ([] : List String)) => absurd hi (List.not_mem_nil i))
          (fun i hi => hi)
        show idsInv _ _ _ _
        simpa [panelsInvariant, leftIds, rightIds, bottomIds, registryIds, optTabs,
          hrp, hbp, idsOf_append, idsOf_filter_ne, idsOf_cons, idsOf_nil] using h2
    | some bp =>
      by_cases hlen : (rp.tabs.filter (fun t => t.id != tab.id)).length > 0
      · rw [if_pos hlen]
        show idsInv _ _ _ _
        simpa [panelsInvariant, leftIds, rightIds, bottomIds, registryIds, optTabs,
          hrp, hbp, idsOf_append, idsOf_filter_ne, idsOf_cons, idsOf_nil] using h
      · rw [if_neg hlen]
        have h2 := idsInv_mono h (fun i hi => hi)
          (fun i (hi : i ∈ ([] : List String)) => absurd hi (List.not_mem_nil i))
          (fun i hi => hi)
        show idsInv _ _ _ _
        simpa [panelsInvariant, leftIds, rightIds, bottomIds, registryIds, optTabs,
          hrp, hbp, idsOf_append, idsOf_filter_ne, idsOf_cons, idsOf_nil] using h2

theorem findSourceTab_left_mem {s : AppState} {dtab tab : FileTab}
    (hfind : findSourceTab s dtab "left" = some tab) :
    tab ∈ s.splitLayout.leftPanel.tabs := by
  unfold findSourceTab at hfind
  simp only [String.reduceBEq, if_true] at hfind
  exact List.mem_of_find?_eq_some hfind

theorem findSourceTab_right_mem {s : AppState} {dtab tab : FileTab}
    (hfind : findSourceTab s dtab "right" = some tab) :
    tab ∈ optTabs s.splitLayout.rightPanel := by
  unfold findSourceTab at hfind
  simp only [String.reduceBEq, Bool.false_eq_true, if_false, if_true] at hfind
  cases hrp : s.splitLayout.rightPanel with
  | none =>
    rw [hrp] at hfind
    simp at hfind
  | some rp =>
    rw [hrp] at hfind
    show tab ∈ rp.tabs
    exact List.mem_of_find?_eq_some (by simpa using hfind)

theorem handleTabDrop_preserves (s : AppState) (toPanel : String)
    (hinv : panelsInvariant s)
    (hsrc : s.dragState.draggedFromPanel = some "left" ∨
      (s.dragState.draggedFromPanel = some "right" ∧
        s.splitLayout.leftPanel.tabs ≠ [])) :
    panelsInvariant (handleTabDrop toPanel s) := by
  unfold handleTabDrop
  rcases hsrc with hdf | ⟨hdf, hLne⟩
  · cases hdt : s.dragState.draggedTab with
    | none =>
      rw [hdf]
      exact hinv
    | some dtab =>
      rw [hdf]
      show panelsInvariant (match findSourceTab s dtab "left" with
        | none => s
        | some tab => handleTabDragEnd (dropCore toPanel "left" tab s))
      cases hfind : findSourceTab s dtab "left" with
      | none =>
        exact hinv
      | some tab =>
        have htab := findSourceTab_left_mem hfind
        show panelsInvariant (handleTabDragEnd (dropCore toPanel "left" tab s))
        rw [panelsInvariant_dragEnd]
        unfold dropCore
        by_cases h1 : (toPanel == "right") = true
        · rw [if_pos h1]
          exact dropToRight_preserves tab s hinv htab
        · rw [if_neg h1]
          by_cases h2 : (toPanel == "left") = true
          · rw [if_pos h2]
            exact dropToLeft_from_left_preserves tab s hinv htab
          · rw [if_neg h2]
            by_cases h3 : (toPanel == "bottom") = true
            · rw [if_pos h3]
              exact dropToBottom_from_left_preserves tab s hinv htab
            · rw [if_neg h3]
              exact hinv
  · cases hdt : s.dragState.draggedTab with
    | none =>
      rw [hdf]
      exact hinv
    | some dtab =>
      rw [hdf]
      show panelsInvariant (match findSourceTab s dtab "right" with
        | none => s
        | some tab => handleTabDragEnd (dropCore toPanel "right" tab s))
      cases hfind : findSourceTab s dtab "right" with
      | none =>
        exact hinv
      | some tab =>
        have htab := findSourceTab_right_mem hfind
        show panelsInvariant (handleTabDragEnd (dropCore toPanel "right" tab s))
        rw [panelsInvariant_dragEnd]
        unfold dropCore
        by_cases h1 : (toPanel == "right") = true
        · rw [if_pos h1]
          exact dropToRight_from_right_preserves tab s hinv htab
        · rw [if_neg h1]
          by_cases h2 : (toPanel == "left") = true
          · rw [if_pos h2]
            exact dropToLeft_from_right_preserves tab s hinv htab hLne
          · rw [if_neg h2]
            by_cases h3 : (toPanel == "bottom") = true
            · rw [if_pos h3]
              exact dropToBottom_from_right_preserves tab s hinv htab
            · rw [if_neg h3]
              exact hinv

/-- C1 (counterexample): the claim "for every reachable state, every
panel-held tab id is in the registry and no tab id is held by two panels, in
particular after splitToRight" is false: from the fresh-start state (tab "1"
in the registry and left panel, active), `handleSplitRight` puts tab "1" into
the right panel while leaving it in the left panel and removing it from the
registry — both halves of the invariant fail at a reachable state. -/
theorem split_right_breaks_invariant :
    ¬ (∀ s : AppState, Reachable s → panelsInvariant s) := by
  intro h
  exact absurd (h (handleSplitRight initState) (Reachable.splitRight Reachable.init))
    (by decide)

/-- C1 (amended): the invariant is preserved by `handleTabDrop` whenever the
drag's source panel is the left panel, or the right panel while the left panel
is non-empty, and by `closeTabFromPanel` on any panel; it is violated by
`handleSplitRight` (which duplicates the split tab across panels and evicts it
from the registry, see the counterexample), and is also violable by
bottom-sourced drops to the right zone (no removal update exists for that
pair) and by a right-to-left drop when the left panel is empty and the dragged
tab is the right panel's only tab (the rebuilt right panel falls back to the
stale one). -/
theorem drop_and_close_preserve_invariant (s : AppState) (hinv : panelsInvariant s) :
    (∀ toPanel : String,
      s.dragState.draggedFromPanel = some "left" ∨
        (s.dragState.draggedFromPanel = some "right" ∧
          s.splitLayout.leftPanel.tabs ≠ []) →
      panelsInvariant (handleTabDrop toPanel s)) ∧
    (∀ (tabId : String) (fromPanel : PanelId),
      panelsInvariant (closeTabFromPanel tabId fromPanel s)) :=
  ⟨fun toPanel hsrc => handleTabDrop_preserves s toPanel hinv hsrc,
   fun tabId fromPanel => closeTabFromPanel_preserves tabId fromPanel s hinv⟩

/-- Witness for the amended C1 at a concrete state: left panel [tab "1",
tab "2"], tab "1" being dragged from the left panel. -/
theorem drop_and_close_preserve_invariant_witness :
    panelsInvariant dragT1State ∧
    panelsInvariant (handleTabDrop "right" dragT1State) ∧
    panelsInvariant (closeTabFromPanel "2" PanelId.left dragT1State) :=
  ⟨by decide,
   (drop_and_close_preserve_invariant dragT1State (by decide)).1 "right"
     (Or.inl (by decide)),
   (drop_and_close_preserve_invariant dragT1State (by decide)).2 "2" PanelId.left⟩

end Notepad
